import Mathlib

set_option maxHeartbeats 1000000
set_option maxRecDepth 8000

/-
Verification of the web-crawler frontier queue, link utilities, content
saver and visited set against their natural-language specification.

The definitions below are a shallow embedding of the Go sources:

* `URLQueue` and its operations embed src/internal/queue/queue.go.
  Go buffered channels are modelled as FIFO lists bounded by the channel
  capacity (send is ready iff the buffer holds fewer than `cap` items and
  appends at the tail; receive takes the head).  A receive from a closed
  channel whose buffer is empty is ready and yields the zero value, which
  is exactly the Go semantics the `select` statements in Pop/PopBlocking
  observe.  The int64 counters are modelled as unbounded `Int` (they only
  ever move by ±1 per operation, so 64-bit wrap-around is unreachable for
  any sequence of operations considered here).
* The `dropped` field is a ghost counter that does not exist in the Go
  struct: it counts executions of the fall-through `default:` branches of
  `PushWithPriority` whose comments read "Both full, drop ..."/"just
  drop".  No source counter is updated on those paths.
-/

/-- PriorityHigh = iota (0) in src/internal/queue/queue.go. -/
def PriorityHigh : Int := 0

/-- PriorityNormal (1) in src/internal/queue/queue.go. -/
def PriorityNormal : Int := 1

/-- PriorityLow (2) in src/internal/queue/queue.go. -/
def PriorityLow : Int := 2

/-- URLItem from src/internal/queue/queue.go.  `queuedAt` models the
`QueuedAt time.Time` field as an abstract tick supplied by the caller
(the code stores `time.Now()`). -/
structure URLItem where
  url : String
  priority : Int
  host : String
  depth : Int
  queuedAt : Nat
deriving DecidableEq

/-- The zero value `URLItem{}` produced by a receive from a closed, empty
Go channel. -/
def zeroURLItem : URLItem := ⟨"", 0, "", 0, 0⟩

/-- URLQueue from src/internal/queue/queue.go.  The three channels are
modelled as bounded FIFO lists; `closed` models the `closed int64` flag
(together with the closedness of the three channels, which `Close` sets
in the same step); `dropped` is a ghost counter of dropped pushes (see
the header comment). -/
structure URLQueue where
  highPriority : List URLItem
  normalPriority : List URLItem
  lowPriority : List URLItem
  size : Int
  closed : Bool
  totalQueued : Int
  totalDequeued : Int
  highCount : Int
  normalCount : Int
  lowCount : Int
  dropped : Int
deriving DecidableEq

/-- Capacity of the high-priority channel (`make(chan URLItem, 2000)`). -/
def highCap : Nat := 2000

/-- Capacity of the normal-priority channel (`make(chan URLItem, 20000)`). -/
def normalCap : Nat := 20000

/-- Capacity of the low-priority channel (`make(chan URLItem, 10000)`). -/
def lowCap : Nat := 10000

namespace URLQueue

/-- NewURLQueue: all buffers empty, all counters zero, open. -/
def newURLQueue : URLQueue :=
  ⟨[], [], [], 0, false, 0, 0, 0, 0, 0, 0⟩

/-- PushWithPriority from src/internal/queue/queue.go lines 56-115.
Each `select { case ch <- item: ... default: ... }` is modelled by a
buffer-capacity test: the send is taken iff the buffer is not full.
The Go `switch` sends `PriorityHigh` to the high channel with fallback
to normal, `PriorityLow` to the low channel with no fallback, and every
other priority value (the `default:` arm, i.e. `PriorityNormal`) to the
normal channel with fallback to low. -/
def pushWithPriority (q : URLQueue) (url : String) (priority : Int)
    (host : String) (depth : Int) (now : Nat) : URLQueue :=
  if q.closed then q
  else
    let item : URLItem := ⟨url, priority, host, depth, now⟩
    if priority = PriorityHigh then
      if q.highPriority.length < highCap then
        { q with highPriority := q.highPriority ++ [item],
                 size := q.size + 1, totalQueued := q.totalQueued + 1,
                 highCount := q.highCount + 1 }
      else if q.normalPriority.length < normalCap then
        { q with normalPriority := q.normalPriority ++ [item],
                 size := q.size + 1, totalQueued := q.totalQueued + 1,
                 normalCount := q.normalCount + 1 }
      else
        { q with dropped := q.dropped + 1 }
    else if priority = PriorityLow then
      if q.lowPriority.length < lowCap then
        { q with lowPriority := q.lowPriority ++ [item],
                 size := q.size + 1, totalQueued := q.totalQueued + 1,
                 lowCount := q.lowCount + 1 }
      else
        { q with dropped := q.dropped + 1 }
    else
      if q.normalPriority.length < normalCap then
        { q with normalPriority := q.normalPriority ++ [item],
                 size := q.size + 1, totalQueued := q.totalQueued + 1,
                 normalCount := q.normalCount + 1 }
      else if q.lowPriority.length < lowCap then
        { q with lowPriority := q.lowPriority ++ [item],
                 size := q.size + 1, totalQueued := q.totalQueued + 1,
                 lowCount := q.lowCount + 1 }
      else
        { q with dropped := q.dropped + 1 }

/-- Push from src/internal/queue/queue.go lines 51-53. -/
def push (q : URLQueue) (url : String) (now : Nat) : URLQueue :=
  q.pushWithPriority url PriorityNormal "" 0 now

/-- Pop from src/internal/queue/queue.go lines 119-147.  The first
`select` tries the high channel: its receive case is ready when the
buffer is non-empty or the channel is closed (a closed empty channel
yields the zero value immediately).  Only when that case is not ready
does control reach the normal and then the low channel, each tried the
same way; once `closed` is set the first case is always ready, so the
later selects are unreachable.  Returns (item, ok, new state). -/
def pop (q : URLQueue) : URLItem × Bool × URLQueue :=
  match q.highPriority with
  | i :: rest =>
      (i, true, { q with highPriority := rest, size := q.size - 1,
                         totalDequeued := q.totalDequeued + 1 })
  | [] =>
      if q.closed then
        (zeroURLItem, true, { q with size := q.size - 1,
                                     totalDequeued := q.totalDequeued + 1 })
      else
        match q.normalPriority with
        | i :: rest =>
            (i, true, { q with normalPriority := rest, size := q.size - 1,
                               totalDequeued := q.totalDequeued + 1 })
        | [] =>
            match q.lowPriority with
            | i :: rest =>
                (i, true, { q with lowPriority := rest, size := q.size - 1,
                                   totalDequeued := q.totalDequeued + 1 })
            | [] => (zeroURLItem, false, q)

/-- Which case a blocking `select` over the three channels commits to. -/
inductive SelCase where
  | high
  | normal
  | low
deriving DecidableEq

/-- PopBlocking from src/internal/queue/queue.go lines 150-178.  After
the `closed` fast path, the first `select` tries the high channel
non-blockingly; if it is empty the final `select` waits on all three
channels at once and commits nondeterministically to one ready case.
That choice is the parameter `c`; `none` means the chosen case is not
ready (in particular all three buffers empty: the call blocks). -/
def popBlocking (q : URLQueue) (c : SelCase) :
    Option (URLItem × Bool × URLQueue) :=
  if q.closed then some (zeroURLItem, false, q)
  else
    match q.highPriority with
    | i :: rest =>
        some (i, true, { q with highPriority := rest, size := q.size - 1,
                                totalDequeued := q.totalDequeued + 1 })
    | [] =>
        match c with
        | SelCase.high => none
        | SelCase.normal =>
            match q.normalPriority with
            | i :: rest =>
                some (i, true,
                  { q with normalPriority := rest, size := q.size - 1,
                           totalDequeued := q.totalDequeued + 1 })
            | [] => none
        | SelCase.low =>
            match q.lowPriority with
            | i :: rest =>
                some (i, true,
                  { q with lowPriority := rest, size := q.size - 1,
                           totalDequeued := q.totalDequeued + 1 })
            | [] => none

/-- Size from src/internal/queue/queue.go lines 196-198. -/
def Size (q : URLQueue) : Int := q.size

/-- Close from src/internal/queue/queue.go lines 225-230: sets the
closed flag and closes the three channels (one atomic step here). -/
def close (q : URLQueue) : URLQueue := { q with closed := true }

end URLQueue

/-- One queue operation, for reasoning about operation sequences. -/
inductive QOp where
  | push (url : String) (priority : Int) (host : String) (depth : Int)
      (now : Nat)
  | pop
deriving DecidableEq

/-- Apply one operation to a queue state (a pop discards its result). -/
def applyQOp (q : URLQueue) : QOp → URLQueue
  | QOp.push url p host depth now => q.pushWithPriority url p host depth now
  | QOp.pop => (URLQueue.pop q).2.2

/-- Run a sequence of queue operations from a starting state. -/
def runQOps (q : URLQueue) : List QOp → URLQueue
  | [] => q
  | op :: rest => runQOps (applyQOp q op) rest

/-- Every single queue operation preserves `size = totalQueued −
totalDequeued`: each successful send increments both `size` and
`totalQueued`, each taken receive decrements `size` and increments
`totalDequeued`, and the drop branches touch neither. -/
theorem applyQOp_conserves (q : URLQueue) (op : QOp)
    (h : q.size = q.totalQueued - q.totalDequeued) :
    (applyQOp q op).size =
      (applyQOp q op).totalQueued - (applyQOp q op).totalDequeued := by
  cases op with
  | push url p host depth now =>
      simp only [applyQOp, URLQueue.pushWithPriority]
      repeat' split
      all_goals simp_all
      all_goals omega
  | pop =>
      simp only [applyQOp, URLQueue.pop]
      repeat' split
      all_goals simp_all
      all_goals omega

/-- The conservation invariant is preserved by any operation sequence. -/
theorem runQOps_conserves (ops : List QOp) (q : URLQueue)
    (h : q.size = q.totalQueued - q.totalDequeued) :
    (runQOps q ops).size =
      (runQOps q ops).totalQueued - (runQOps q ops).totalDequeued := by
  induction ops generalizing q with
  | nil => exact h
  | cons op rest ih => exact ih (applyQOp q op) (applyQOp_conserves q op h)

/-- C1 (amended): after any finite sequence of PushWithPriority and Pop
operations — with or without drops — `Size()` equals `totalQueued −
totalDequeued`.  A dropped push updates no counter at all (in particular
`totalQueued` is not incremented), so no `droppedCount` term appears in
the identity. -/
theorem C1_size_conservation (ops : List QOp) :
    (runQOps URLQueue.newURLQueue ops).Size =
      (runQOps URLQueue.newURLQueue ops).totalQueued -
        (runQOps URLQueue.newURLQueue ops).totalDequeued :=
  runQOps_conserves ops URLQueue.newURLQueue (by decide)

/-- The item pushed by the drop counterexample sequence. -/
def lowSpamItem : URLItem := ⟨"u", 2, "h", 0, 0⟩

/-- A low-priority push operation, repeated to saturate the low queue. -/
def lowSpamOp : QOp := QOp.push "u" 2 "h" 0 0

/-- The queue state reached after `k` successful low-priority pushes of
`lowSpamItem` into a fresh queue. -/
def lowFillState (k : Nat) : URLQueue :=
  ⟨[], [], List.replicate k lowSpamItem, (k : Int), false, (k : Int),
    0, 0, 0, (k : Int), 0⟩

/-- While the low buffer is below capacity, one more low push extends it. -/
theorem lowFill_step (k : Nat) (hk : k < lowCap) :
    applyQOp (lowFillState k) lowSpamOp = lowFillState (k + 1) := by
  simp only [applyQOp, lowSpamOp, URLQueue.pushWithPriority, lowFillState,
    PriorityHigh, PriorityLow, List.length_replicate]
  norm_num [hk, List.replicate_succ', lowSpamItem]

/-- Running `n` low pushes from the `k`-filled state, staying within
capacity, yields the `(k+n)`-filled state. -/
theorem lowFill_run (n : Nat) : ∀ k : Nat, k + n ≤ lowCap →
    runQOps (lowFillState k) (List.replicate n lowSpamOp) =
      lowFillState (k + n) := by
  induction n with
  | zero => intro k _; simp [runQOps]
  | succ n ih =>
      intro k hk
      rw [List.replicate_succ]
      simp only [runQOps]
      rw [lowFill_step k (by omega), ih (k + 1) (by omega)]
      congr 1
      omega

/-- Running a concatenation of operation lists runs them in sequence. -/
theorem runQOps_append (q : URLQueue) (l1 l2 : List QOp) :
    runQOps q (l1 ++ l2) = runQOps (runQOps q l1) l2 := by
  induction l1 generalizing q with
  | nil => rfl
  | cons op rest ih => simp [runQOps, ih]

/-- A low push into a queue whose low buffer is at capacity is dropped:
no buffer and no source counter changes (only the ghost drop counter). -/
theorem lowFill_drop :
    applyQOp (lowFillState lowCap) lowSpamOp =
      { lowFillState lowCap with dropped := 1 } := by
  simp only [applyQOp, lowSpamOp, URLQueue.pushWithPriority, lowFillState,
    PriorityHigh, PriorityLow, List.length_replicate]
  norm_num [lowCap]

/-- C1 counterexample: 10001 consecutive low-priority pushes into a
fresh queue saturate the 10000-slot low buffer and drop the last push.
The dropped push updates no counter, so afterwards `Size() = 10000`
while `totalQueued − totalDequeued − droppedCount = 10000 − 0 − 1`,
refuting the claimed identity `size = totalQueued − totalDequeued −
droppedCount` for sequences containing a drop. -/
theorem C1_counterexample :
    ¬ ((runQOps URLQueue.newURLQueue (List.replicate 10001 lowSpamOp)).Size =
        (runQOps URLQueue.newURLQueue
            (List.replicate 10001 lowSpamOp)).totalQueued -
          (runQOps URLQueue.newURLQueue
            (List.replicate 10001 lowSpamOp)).totalDequeued -
          (runQOps URLQueue.newURLQueue
            (List.replicate 10001 lowSpamOp)).dropped) := by
  have h1 : URLQueue.newURLQueue = lowFillState 0 := by
    simp [URLQueue.newURLQueue, lowFillState]
  have h2 : List.replicate 10001 lowSpamOp =
      List.replicate 10000 lowSpamOp ++ [lowSpamOp] := by
    rw [show (10001 : Nat) = 10000 + 1 from rfl, List.replicate_succ']
  rw [h2, runQOps_append, h1,
    lowFill_run 10000 0 (by norm_num [lowCap])]
  have h3 : (0 : Nat) + 10000 = lowCap := by norm_num [lowCap]
  rw [h3]
  simp only [runQOps, lowFill_drop]
  simp [URLQueue.Size, lowFillState]
  omega

/-- C2: whenever the High sub-queue holds at least one item, Pop returns
the item at the front of the High sub-queue with ok = true and leaves the
Normal and Low sub-queues untouched. -/
theorem C2_pop_prefers_high (q : URLQueue) (i : URLItem)
    (rest : List URLItem) (h : q.highPriority = i :: rest) :
    (URLQueue.pop q).1 = i ∧ (URLQueue.pop q).2.1 = true ∧
    (URLQueue.pop q).2.2.highPriority = rest ∧
    (URLQueue.pop q).2.2.normalPriority = q.normalPriority ∧
    (URLQueue.pop q).2.2.lowPriority = q.lowPriority := by
  simp [URLQueue.pop, h]

/-- A sample high-priority item. -/
def hiItem : URLItem := ⟨"http://a/", 0, "a", 0, 0⟩

/-- A queue holding one item in each sub-queue. -/
def qWithHigh : URLQueue :=
  ⟨[hiItem], [⟨"http://n/", 1, "n", 0, 0⟩], [⟨"http://l/", 2, "l", 0, 0⟩],
    3, false, 3, 0, 1, 1, 1, 0⟩

/-- Witness for C2 at a concrete queue with all three tiers populated. -/
theorem C2_pop_prefers_high_witness :
    (URLQueue.pop qWithHigh).1 = hiItem ∧
    (URLQueue.pop qWithHigh).2.1 = true ∧
    (URLQueue.pop qWithHigh).2.2.highPriority = [] ∧
    (URLQueue.pop qWithHigh).2.2.normalPriority = qWithHigh.normalPriority ∧
    (URLQueue.pop qWithHigh).2.2.lowPriority = qWithHigh.lowPriority :=
  C2_pop_prefers_high qWithHigh hiItem [] rfl

/-- C5: once the queue is closed, PushWithPriority is a no-op for every
URL, priority, host, depth and time: the returned state is the argument
state unchanged (no buffer and no counter is modified). -/
theorem C5_push_after_close (q : URLQueue) (url : String) (priority : Int)
    (host : String) (depth : Int) (now : Nat) (h : q.closed = true) :
    q.pushWithPriority url priority host depth now = q := by
  simp [URLQueue.pushWithPriority, h]

/-- Witness for C5: pushing into a freshly closed queue changes nothing. -/
theorem C5_push_after_close_witness :
    (URLQueue.close URLQueue.newURLQueue).pushWithPriority
        "http://x/" 0 "x" 3 7 =
      URLQueue.close URLQueue.newURLQueue :=
  C5_push_after_close (URLQueue.close URLQueue.newURLQueue)
    "http://x/" 0 "x" 3 7 rfl

/-- C9 failing input: Close() on a fresh queue, then Pop() with all
sub-queues empty.  The first `select` in Pop finds the closed high
channel ready, receives its zero value, and the code decrements `size`
to −1, increments `totalDequeued`, and returns ok = true with a
fabricated zero-value URLItem that was never pushed — contradicting
Pop's own doc comment ("Returns empty URLItem and false if no URLs are
available") and the spec's size gauge. -/
theorem C9_pop_after_close_fabricates :
    URLQueue.pop (URLQueue.close URLQueue.newURLQueue) =
      (zeroURLItem, true,
        { URLQueue.newURLQueue with closed := true, size := -1,
                                    totalDequeued := 1 }) ∧
    (URLQueue.pop (URLQueue.close URLQueue.newURLQueue)).2.2.Size < 0 := by
  decide

/-- The Normal item of the C4 counterexample state. -/
def c4NormalItem : URLItem := ⟨"http://n/", 1, "n", 1, 0⟩

/-- The Low item of the C4 counterexample state. -/
def c4LowItem : URLItem := ⟨"http://l/", 2, "l", 1, 0⟩

/-- An open queue with High empty and Normal, Low each non-empty. -/
def c4Queue : URLQueue :=
  ⟨[], [c4NormalItem], [c4LowItem], 2, false, 2, 0, 0, 1, 1, 0⟩

/-- C4 counterexample: `Pop` is a pure function of the queue state, and
on this state — High empty, Normal and Low both non-empty — its unique
result takes the Normal item and leaves the Low buffer untouched; the
choice is deterministically always Normal.  This refutes the claim that
Pop performs the same simultaneous unbiased Normal/Low wait as
PopBlocking (the source comment reads "Only check low priority if
normal is empty"). -/
theorem C4_counterexample :
    (URLQueue.pop c4Queue).1 = c4NormalItem ∧
    (URLQueue.pop c4Queue).1 ≠ c4LowItem ∧
    (URLQueue.pop c4Queue).2.2.lowPriority = [c4LowItem] := by
  decide

/-- C4 (amended): both Pop and PopBlocking attempt the High sub-queue
first; when High is empty, PopBlocking waits on Normal and Low
simultaneously and either may be chosen (no deterministic bias), whereas
the non-blocking Pop deterministically takes Normal and consults Low
only when Normal is empty. -/
theorem C4_selection_policy :
    (∀ (q : URLQueue) (c : URLQueue.SelCase) (i : URLItem)
        (rest : List URLItem),
        q.closed = false → q.highPriority = i :: rest →
        (URLQueue.pop q).1 = i ∧
        (URLQueue.popBlocking q c).map (fun r => r.1) = some i) ∧
    (∀ (q : URLQueue) (i j : URLItem) (r s : List URLItem),
        q.closed = false → q.highPriority = [] →
        q.normalPriority = i :: r → q.lowPriority = j :: s →
        (URLQueue.popBlocking q URLQueue.SelCase.normal).map
            (fun x => x.1) = some i ∧
        (URLQueue.popBlocking q URLQueue.SelCase.low).map
            (fun x => x.1) = some j) ∧
    (∀ (q : URLQueue) (i : URLItem) (r : List URLItem),
        q.closed = false → q.highPriority = [] →
        q.normalPriority = i :: r →
        (URLQueue.pop q).1 = i) := by
  refine ⟨?_, ?_, ?_⟩
  · intro q c i rest hc hh
    simp [URLQueue.pop, URLQueue.popBlocking, hc, hh]
  · intro q i j r s hc hh hn hl
    simp [URLQueue.popBlocking, hc, hh, hn, hl]
  · intro q i r hc hh hn
    simp [URLQueue.pop, hc, hh, hn]

/-- Witness for the amended C4 at concrete states: the high-first rule
at `qWithHigh`, and both PopBlocking choices plus Pop's Normal
preference at `c4Queue`. -/
theorem C4_selection_policy_witness :
    ((URLQueue.pop qWithHigh).1 = hiItem ∧
      (URLQueue.popBlocking qWithHigh URLQueue.SelCase.normal).map
          (fun r => r.1) = some hiItem) ∧
    ((URLQueue.popBlocking c4Queue URLQueue.SelCase.normal).map
        (fun x => x.1) = some c4NormalItem ∧
      (URLQueue.popBlocking c4Queue URLQueue.SelCase.low).map
          (fun x => x.1) = some c4LowItem) ∧
    (URLQueue.pop c4Queue).1 = c4NormalItem :=
  ⟨C4_selection_policy.1 qWithHigh URLQueue.SelCase.normal hiItem [] rfl rfl,
   C4_selection_policy.2.1 c4Queue c4NormalItem c4LowItem [] [] rfl rfl rfl rfl,
   C4_selection_policy.2.2 c4Queue c4NormalItem [] rfl rfl rfl⟩

/-- C3: on an open queue, PushWithPriority never blocks and follows the
fallback policy.  A High job goes to the High sub-queue when it has
room, else to Normal when that has room, else it is dropped with every
buffer, `size` and `totalQueued` unchanged; a Normal job goes to Normal,
falling back to Low, else dropped; a Low job goes to Low or is dropped
(no fallback).  In each successful case exactly the matching buffer
grows by the new item at its tail. -/
theorem C3_push_fallback_policy (q : URLQueue) (url host : String)
    (depth : Int) (now : Nat) (hopen : q.closed = false) :
    (let item : URLItem := ⟨url, PriorityHigh, host, depth, now⟩
     let q1 := q.pushWithPriority url PriorityHigh host depth now
     (q.highPriority.length < highCap →
        q1.highPriority = q.highPriority ++ [item] ∧
        q1.normalPriority = q.normalPriority ∧
        q1.lowPriority = q.lowPriority ∧ q1.size = q.size + 1) ∧
     (¬ q.highPriority.length < highCap →
        q.normalPriority.length < normalCap →
        q1.normalPriority = q.normalPriority ++ [item] ∧
        q1.highPriority = q.highPriority ∧
        q1.lowPriority = q.lowPriority ∧ q1.size = q.size + 1) ∧
     (¬ q.highPriority.length < highCap →
        ¬ q.normalPriority.length < normalCap →
        q1.highPriority = q.highPriority ∧
        q1.normalPriority = q.normalPriority ∧
        q1.lowPriority = q.lowPriority ∧ q1.size = q.size ∧
        q1.totalQueued = q.totalQueued ∧ q1.dropped = q.dropped + 1)) ∧
    (let item : URLItem := ⟨url, PriorityNormal, host, depth, now⟩
     let q1 := q.pushWithPriority url PriorityNormal host depth now
     (q.normalPriority.length < normalCap →
        q1.normalPriority = q.normalPriority ++ [item] ∧
        q1.highPriority = q.highPriority ∧
        q1.lowPriority = q.lowPriority ∧ q1.size = q.size + 1) ∧
     (¬ q.normalPriority.length < normalCap →
        q.lowPriority.length < lowCap →
        q1.lowPriority = q.lowPriority ++ [item] ∧
        q1.highPriority = q.highPriority ∧
        q1.normalPriority = q.normalPriority ∧ q1.size = q.size + 1) ∧
     (¬ q.normalPriority.length < normalCap →
        ¬ q.lowPriority.length < lowCap →
        q1.highPriority = q.highPriority ∧
        q1.normalPriority = q.normalPriority ∧
        q1.lowPriority = q.lowPriority ∧ q1.size = q.size ∧
        q1.totalQueued = q.totalQueued ∧ q1.dropped = q.dropped + 1)) ∧
    (let item : URLItem := ⟨url, PriorityLow, host, depth, now⟩
     let q1 := q.pushWithPriority url PriorityLow host depth now
     (q.lowPriority.length < lowCap →
        q1.lowPriority = q.lowPriority ++ [item] ∧
        q1.highPriority = q.highPriority ∧
        q1.normalPriority = q.normalPriority ∧ q1.size = q.size + 1) ∧
     (¬ q.lowPriority.length < lowCap →
        q1.highPriority = q.highPriority ∧
        q1.normalPriority = q.normalPriority ∧
        q1.lowPriority = q.lowPriority ∧ q1.size = q.size ∧
        q1.totalQueued = q.totalQueued ∧ q1.dropped = q.dropped + 1)) := by
  refine ⟨⟨?_, ?_, ?_⟩, ⟨?_, ?_, ?_⟩, ?_, ?_⟩ <;>
    intro h1 <;> try intro h2
  all_goals
    simp [URLQueue.pushWithPriority, hopen, PriorityHigh, PriorityNormal,
      PriorityLow, *]

/-- Witness for C3: pushing one job of each priority into a fresh open
queue lands each job in its matching sub-queue. -/
theorem C3_push_fallback_policy_witness :
    (URLQueue.newURLQueue.pushWithPriority "u" PriorityHigh "h" 1 0
        ).highPriority = [⟨"u", PriorityHigh, "h", 1, 0⟩] ∧
    (URLQueue.newURLQueue.pushWithPriority "u" PriorityNormal "h" 1 0
        ).normalPriority = [⟨"u", PriorityNormal, "h", 1, 0⟩] ∧
    (URLQueue.newURLQueue.pushWithPriority "u" PriorityLow "h" 1 0
        ).lowPriority = [⟨"u", PriorityLow, "h", 1, 0⟩] :=
  ⟨((C3_push_fallback_policy URLQueue.newURLQueue "u" "h" 1 0 rfl).1.1
      (by decide)).1,
   ((C3_push_fallback_policy URLQueue.newURLQueue "u" "h" 1 0 rfl).2.1.1
      (by decide)).1,
   ((C3_push_fallback_policy URLQueue.newURLQueue "u" "h" 1 0 rfl).2.2.1
      (by decide)).1⟩

/-- Modelled from the spec: the Visited Set implementation is not among
the provided source files (only the spec §4.4 describes it).  Per the
spec, `tryAdmit(url)` "atomically checks membership and inserts if
absent, returning true only to the single caller that performed the
insertion".  The set is modelled as the list of admitted normalized
URLs; one call is one atomic check-then-insert step. -/
def tryAdmit (visited : List String) (url : String) : Bool × List String :=
  if url ∈ visited then (false, visited) else (true, url :: visited)

/-- Run `n` tryAdmit calls for the same URL in sequence (any interleaving
of atomic calls is such a sequence), returning how many of them
returned true together with the final set. -/
def runAdmits (visited : List String) (url : String) :
    Nat → Nat × List String
  | 0 => (0, visited)
  | n + 1 =>
      let r := tryAdmit visited url
      let rec' := runAdmits r.2 url n
      ((if r.1 then 1 else 0) + rec'.1, rec'.2)

/-- After a successful admit the URL is a member, so every later call for
it returns false. -/
theorem runAdmits_member (url : String) (n : Nat) :
    ∀ visited : List String, url ∈ visited →
      (runAdmits visited url n).1 = 0 := by
  induction n with
  | zero => intro visited _; rfl
  | succ n ih =>
      intro visited hmem
      simp only [runAdmits, tryAdmit, if_pos hmem]
      simpa using ih visited hmem

/-- C6: for any number n ≥ 1 of tryAdmit calls with the same normalized
URL, interleaved in any order from a state that has not yet admitted the
URL, exactly one call returns true and all others return false. -/
theorem C6_tryAdmit_exactly_once (visited : List String) (url : String)
    (n : Nat) (hmem : url ∉ visited) (hn : 1 ≤ n) :
    (runAdmits visited url n).1 = 1 := by
  obtain ⟨m, rfl⟩ : ∃ m, n = m + 1 := ⟨n - 1, by omega⟩
  simp only [runAdmits, tryAdmit, if_neg hmem]
  simp [runAdmits_member url m (url :: visited) (List.mem_cons_self url visited)]

/-- Witness for C6: three concurrent admits of a fresh URL yield exactly
one true. -/
theorem C6_tryAdmit_exactly_once_witness :
    (runAdmits ["http://seen/"] "http://new/" 3).1 = 1 :=
  C6_tryAdmit_exactly_once ["http://seen/"] "http://new/" 3
    (by decide) (by decide)

/-
Model of the parts of Go's net/url used by pkg/utils.ToAbsoluteURL and
the content saver: Parse, ResolveReference, String and resolvePath.
These are standard-library collaborators of the repository code, so they
are embedded from the documented net/url semantics with these stated
simplifications: no percent-en/decoding, no userinfo or port validation,
no control-character rejection, no ForceQuery/OmitHost flags.  None of
the inputs used by the claims exercise those features.
-/

/-- Break a character list at the first occurrence of `sep`:
`some (before, after)` without the separator, `none` when absent
(strings.Cut / strings.Index). -/
def breakAtChar (sep : Char) : List Char → Option (List Char × List Char)
  | [] => none
  | c :: rest =>
      if c = sep then some ([], rest)
      else (breakAtChar sep rest).map (fun p => (c :: p.1, p.2))

/-- Split a character list on every occurrence of `sep`
(strings.Split). -/
def splitOnChar (sep : Char) : List Char → List (List Char)
  | [] => [[]]
  | c :: cs =>
      match splitOnChar sep cs with
      | r :: rs => if c = sep then [] :: r :: rs else (c :: r) :: rs
      | [] => [[]]

/-- Whether `p` is a leading segment of `l` (strings.HasPrefix). -/
def listHasPfx : List Char → List Char → Bool
  | _, [] => true
  | [], _ :: _ => false
  | c :: cs, p :: ps => c = p && listHasPfx cs ps

/-- Index of the last occurrence of `sep` (strings.LastIndex). -/
def lastIdxOf (sep : Char) : List Char → Option Nat
  | [] => none
  | c :: cs =>
      match lastIdxOf sep cs with
      | some i => some (i + 1)
      | none => if c = sep then some 0 else none

/-- Model of net/url getScheme: scan the input for `scheme:`.  A colon
at position 0 is the "missing protocol scheme" error (`none`); a scheme
must start with a letter and continue with letters, digits, `+`, `-` or
`.`; any other character, or no colon, means no scheme and the whole
input is the remainder.  The scheme is lowercased as in Go. -/
def getSchemeAux (orig : List Char) : List Char → List Char →
    Option (String × List Char)
  | _, [] => some ("", orig)
  | acc, c :: rest =>
      if c.isAlpha then getSchemeAux orig (acc ++ [c]) rest
      else if c.isDigit ∨ c = '+' ∨ c = '-' ∨ c = '.' then
        if acc.isEmpty then some ("", orig)
        else getSchemeAux orig (acc ++ [c]) rest
      else if c = ':' then
        if acc.isEmpty then none
        else some (String.mk (acc.map Char.toLower), rest)
      else some ("", orig)

/-- The fields of a parsed net/url URL that this development uses. -/
structure GoURL where
  scheme : String
  opq : String
  host : String
  path : String
  rawQuery : String
  fragment : String
deriving DecidableEq

/-- Model of net/url Parse: split off the fragment at the first `#`,
extract the scheme, split off the query at the first `?`; a
non-rooted remainder is opq (Go: the field named after that notion, a
reserved word here) when a scheme is present and is rejected
when schemeless with a colon in its first segment; a `//` remainder
carries an authority (host) up to the next `/`. -/
def urlParse (rawURL : String) : Option GoURL :=
  let fragCut := breakAtChar '#' rawURL.data
  let noFrag := match fragCut with | none => rawURL.data | some p => p.1
  let frag := match fragCut with | none => ([] : List Char) | some p => p.2
  match getSchemeAux noFrag [] noFrag with
  | none => none
  | some (scheme, rest0) =>
      let qCut := breakAtChar '?' rest0
      let rest1 := match qCut with | none => rest0 | some p => p.1
      let rawQuery := match qCut with | none => ([] : List Char) | some p => p.2
      if ¬ listHasPfx rest1 ['/'] then
        if scheme ≠ "" then
          some ⟨scheme, String.mk rest1, "", "", String.mk rawQuery,
                String.mk frag⟩
        else
          let seg := match breakAtChar '/' rest1 with
                     | none => rest1
                     | some p => p.1
          if seg.contains ':' then none
          else
            some ⟨"", "", "", String.mk rest1, String.mk rawQuery,
                  String.mk frag⟩
      else
        if listHasPfx rest1 ['/', '/'] ∧
            (scheme ≠ "" ∨ ¬ listHasPfx rest1 ['/', '/', '/']) then
          let afterSlashes := rest1.drop 2
          match breakAtChar '/' afterSlashes with
          | none =>
              some ⟨scheme, "", String.mk afterSlashes, "",
                    String.mk rawQuery, String.mk frag⟩
          | some p =>
              some ⟨scheme, "", String.mk p.1, String.mk ('/' :: p.2),
                    String.mk rawQuery, String.mk frag⟩
        else
          some ⟨scheme, "", "", String.mk rest1, String.mk rawQuery,
                String.mk frag⟩

/-- One iteration of the segment loop of net/url resolvePath; the state
is (dst, first) with dst the builder contents (starting at "/"). -/
def rpStep (st : List Char × Bool) (e : List Char) : List Char × Bool :=
  if e = ['.'] then (st.1, false)
  else if e = ['.', '.'] then
    let str := st.1.drop 1
    match lastIdxOf '/' str with
    | none => (['/'], true)
    | some i => ('/' :: str.take i, st.2)
  else
    let dst := if st.2 = false then st.1 ++ ['/'] else st.1
    (dst ++ e, false)

/-- Model of net/url resolvePath: merge `ref` against `base`, remove
`.` and `..` segments, restore a trailing slash after a final dot
segment, and drop the doubled leading slash artefact. -/
def resolvePath (base ref : String) : String :=
  let full : List Char :=
    if ref = "" then base.data
    else if ¬ listHasPfx ref.data ['/'] then
      (match lastIdxOf '/' base.data with
       | none => []
       | some i => base.data.take (i + 1)) ++ ref.data
    else ref.data
  if full = [] then ""
  else
    let elems := splitOnChar '/' full
    let st := elems.foldl rpStep (['/'], true)
    let lastE := elems.getLastD []
    let dst := if lastE = ['.'] ∨ lastE = ['.', '.'] then st.1 ++ ['/']
               else st.1
    let r := if dst.length > 1 ∧ dst.get? 1 = some '/' then dst.drop 1
             else dst
    String.mk r

/-- Model of net/url URL.ResolveReference. -/
def resolveReference (u ref : GoURL) : GoURL :=
  let url1 := if ref.scheme = "" then { ref with scheme := u.scheme }
              else ref
  if ref.scheme ≠ "" ∨ ref.host ≠ "" then
    { url1 with path := resolvePath ref.path "" }
  else if ref.opq ≠ "" then
    { url1 with host := "", path := "" }
  else
    let url2 :=
      if ref.path = "" ∧ ref.rawQuery = "" then
        let u1 := { url1 with rawQuery := u.rawQuery }
        if ref.fragment = "" then { u1 with fragment := u.fragment } else u1
      else url1
    { url2 with host := u.host, path := resolvePath u.path ref.path }

/-- Model of net/url URL.String. -/
def urlString (u : GoURL) : String :=
  let buf1 := if u.scheme ≠ "" then u.scheme ++ ":" else ""
  let buf2 :=
    if u.opq ≠ "" then buf1 ++ u.opq
    else
      let b :=
        if u.scheme ≠ "" ∨ u.host ≠ "" then
          (if u.host ≠ "" ∨ u.path ≠ "" then buf1 ++ "//" else buf1) ++
            u.host
        else buf1
      let b := if u.path ≠ "" ∧ ¬ listHasPfx u.path.data ['/'] ∧
                   u.host ≠ "" then b ++ "/" else b
      b ++ u.path
  let buf3 := if u.rawQuery ≠ "" then buf2 ++ "?" ++ u.rawQuery else buf2
  if u.fragment ≠ "" then buf3 ++ "#" ++ u.fragment else buf3

/-- ToAbsoluteURL from pkg/utils (src/unnamed/part_002 lines 59-81):
an empty href yields ""; everything from the first '#' on is removed;
(post-strip) hrefs led by mailto:, tel: or javascript: yield "";
otherwise the href is parsed ("" on parse error) and resolved against
the base URL. -/
def ToAbsoluteURL (base : GoURL) (href : String) : String :=
  if href = "" then ""
  else
    let href2 := String.mk (href.data.takeWhile (fun c => c ≠ '#'))
    if listHasPfx href2.data "mailto:".data ∨
        listHasPfx href2.data "tel:".data ∨
        listHasPfx href2.data "javascript:".data then ""
    else
      match urlParse href2 with
      | none => ""
      | some rel => urlString (resolveReference base rel)

/-- Taking the prefix before the first `#` twice is the same as once. -/
theorem takeWhile_idem (p : Char → Bool) (l : List Char) :
    (l.takeWhile p).takeWhile p = l.takeWhile p := by
  induction l with
  | nil => rfl
  | cons c cs ih =>
      by_cases h : p c <;> simp [List.takeWhile_cons, h, ih]

/-- C7 (amended): ToAbsoluteURL returns the empty string for the empty
href and for hrefs that (after fragment stripping) begin with mailto:,
tel: or javascript:; and it strips any fragment suffix before
resolving, so a href resolves exactly as its fragment-free prefix does
(whenever that prefix is non-empty; a fragment-only href instead
resolves to the base URL itself, see the counterexample). -/
theorem C7_link_resolution (base : GoURL) (href : String) :
    ToAbsoluteURL base "" = "" ∧
    ((listHasPfx (href.data.takeWhile (fun c => c ≠ '#')) "mailto:".data ∨
      listHasPfx (href.data.takeWhile (fun c => c ≠ '#')) "tel:".data ∨
      listHasPfx (href.data.takeWhile (fun c => c ≠ '#'))
        "javascript:".data) →
      ToAbsoluteURL base href = "") ∧
    (String.mk (href.data.takeWhile (fun c => c ≠ '#')) ≠ "" →
      ToAbsoluteURL base href =
        ToAbsoluteURL base
          (String.mk (href.data.takeWhile (fun c => c ≠ '#')))) := by
  refine ⟨rfl, ?_, ?_⟩
  · intro h
    by_cases h0 : href = ""
    · simp [ToAbsoluteURL, h0]
    · simp only [ToAbsoluteURL, if_neg h0]
      exact if_pos h
  · intro hs
    have h0 : href ≠ "" := by
      intro h
      rw [h] at hs
      exact hs rfl
    simp only [ToAbsoluteURL, if_neg h0, if_neg hs]
    rw [takeWhile_idem]

/-- The base URL http://example.com/page of the C7 counterexample. -/
def baseExample : GoURL := ⟨"http", "", "example.com", "/page", "", ""⟩

/-- C7 counterexample: against base http://example.com/page, the
fragment-only href "#top" resolves to the base URL string itself, not to
the empty string, and the non-http(s) href "ftp://example.org/file" is
passed through rather than discarded — only the three prefixes mailto:,
tel: and javascript: are filtered. -/
theorem C7_counterexample :
    ToAbsoluteURL baseExample "#top" = "http://example.com/page" ∧
    ("http://example.com/page" : String) ≠ "" ∧
    ToAbsoluteURL baseExample "ftp://example.org/file" =
      "ftp://example.org/file" ∧
    ("ftp://example.org/file" : String) ≠ "" := by
  decide

/-- Witness for the amended C7 at concrete hrefs: empty href, a mailto
href, and a href whose fragment suffix is stripped before resolution. -/
theorem C7_link_resolution_witness :
    ToAbsoluteURL baseExample "" = "" ∧
    ToAbsoluteURL baseExample "mailto:a@b.c" = "" ∧
    ToAbsoluteURL baseExample "/docs#frag" =
      ToAbsoluteURL baseExample "/docs" :=
  ⟨(C7_link_resolution baseExample "").1,
   (C7_link_resolution baseExample "mailto:a@b.c").2.1 (by decide),
   (C7_link_resolution baseExample "/docs#frag").2.2 (by decide)⟩

/-- Go byte length of a string (len(s) counts UTF-8 bytes). -/
def goLen (s : String) : Nat := s.utf8ByteSize

/-- strings.ReplaceAll for single-character patterns. -/
def replaceAllChar (s : String) (a b : Char) : String :=
  String.mk (s.data.map (fun c => if c = a then b else c))

/-- strings.TrimPrefix: drop `p` from the front of `s` when present. -/
def trimPfxStr (s p : String) : String :=
  if listHasPfx s.data p.data then String.mk (s.data.drop p.data.length)
  else s

/-- Stand-in for the crypto/md5 hex digest used by createSafeFilename's
parse-error and long-path fallbacks.  No claim observes the digest's
value (the inputs considered all keep paths short and parseable), so
the hash is modelled as an unspecified deterministic function of its
input rather than as the MD5 permutation itself. -/
def md5hex (s : String) : String :=
  String.mk (Nat.toDigits 16
    (s.data.foldl (fun a c => (a * 131 + c.toNat) % (2 ^ 128)) 0))

/-- Model of filepath.Join for the clean, non-empty components built
here: join with a single separator. -/
def joinPath (a b : String) : String :=
  if a = "" then b else a ++ "/" ++ b

/-- ContentSaver from pkg/utils (src/unnamed/part_003 lines 13-18). -/
structure ContentSaver where
  baseDir : String
  enabled : Bool
  maxFileSize : Int
deriving DecidableEq

/-- NewContentSaver (src/unnamed/part_003 lines 21-27). -/
def NewContentSaver (baseDir : String) (enabled : Bool)
    (maxFileSize : Int) : ContentSaver :=
  ⟨baseDir, enabled, maxFileSize⟩

/-- createSafeFilename (src/unnamed/part_003 lines 68-109): start from
the parsed URL's path ("index" for "" or "/"), strip the leading slash,
replace the unsafe characters with underscores, truncate over-long
names with a hash suffix, and append a sanitized short query.  Go
slices bytes (path[:80]); this model slices characters, which agrees on
the ASCII inputs used throughout. -/
def createSafeFilename (pageURL : String) : String :=
  match urlParse pageURL with
  | none => "page_" ++ md5hex pageURL
  | some u =>
      let path := u.path
      let path := if path = "" ∨ path = "/" then "index" else path
      let path := trimPfxStr path "/"
      let path := replaceAllChar path '/' '_'
      let path := replaceAllChar path '?' '_'
      let path := replaceAllChar path '&' '_'
      let path := replaceAllChar path '=' '_'
      let path := replaceAllChar path '#' '_'
      let path := replaceAllChar path '%' '_'
      let path := replaceAllChar path ' ' '_'
      let path :=
        if goLen path > 100 then
          String.mk (path.data.take 80) ++
            String.mk (("_" ++ md5hex u.path).data.take 16)
        else path
      let path :=
        if u.rawQuery ≠ "" ∧ goLen path < 80 then
          let query := replaceAllChar (replaceAllChar u.rawQuery '=' '_')
            '&' '_'
          if goLen path + goLen query < 100 then path ++ "_" ++ query
          else path
        else path
      path

/-- sanitizeDomain (src/unnamed/part_003 lines 112-121). -/
def sanitizeDomain (domain : String) : String :=
  replaceAllChar (replaceAllChar (trimPfxStr domain "www.") '.' '_')
    ':' '_'

/-- createMetadataHeader (src/unnamed/part_003 lines 124-137), with the
already-formatted crawl time passed as a string. -/
def createMetadataHeader (pageURL title contentType : String)
    (statusCode : Int) (crawledAt : String) (contentSize : Nat) :
    String :=
  "<!--\nCRAWLED PAGE METADATA\n=====================\nURL: " ++ pageURL
    ++ "\nTitle: " ++ title ++ "\nContent-Type: " ++ contentType
    ++ "\nStatus Code: " ++ toString statusCode ++ "\nCrawled At: "
    ++ crawledAt ++ "\nContent Size: " ++ toString contentSize
    ++ " bytes\nCrawler: Ultra-High-Performance Go Web Crawler\n"
    ++ "=====================\n-->"

/-- Outcome of SavePageContent: a returned parse error, a nil return
with no file written, or a write of the given contents at the given
path (the file system itself is modelled as always succeeding). -/
inductive SaveResult where
  | err
  | skipped
  | written (path : String) (contents : String)
deriving DecidableEq

/-- SavePageContent (src/unnamed/part_003 lines 30-65): skip when
disabled; skip when a positive ceiling is exceeded by the content's
byte length; otherwise write metadata + blank line + content under
baseDir/<sanitized host>/<safe filename>.html.  The source computes the
filename before parsing the URL, but on a parse error it returns the
error without using the filename, so checking the shared parse first is
equivalent. -/
def SavePageContent (cs : ContentSaver)
    (pageURL title content contentType : String) (statusCode : Int)
    (crawledAt : String) : SaveResult :=
  if cs.enabled = false then SaveResult.skipped
  else if cs.maxFileSize > 0 ∧ (goLen content : Int) > cs.maxFileSize then
    SaveResult.skipped
  else
    match urlParse pageURL with
    | none => SaveResult.err
    | some u =>
        let domainDir := joinPath cs.baseDir (sanitizeDomain u.host)
        let filePath := joinPath domainDir
          (createSafeFilename pageURL ++ ".html")
        let metadata := createMetadataHeader pageURL title contentType
          statusCode crawledAt (goLen content)
        SaveResult.written filePath (metadata ++ "\n\n" ++ content)

/-- C8: with a positive size ceiling, any page whose content exceeds the
ceiling is skipped — nothing is written and nil is returned; any
enabled save within the ceiling whose URL parses writes the metadata
plus content to baseDir/<sanitized host>/<filename from path>.html. -/
theorem C8_save_page_content (cs : ContentSaver)
    (pageURL title content contentType : String) (statusCode : Int)
    (crawledAt : String) :
    (cs.maxFileSize > 0 → (goLen content : Int) > cs.maxFileSize →
      SavePageContent cs pageURL title content contentType statusCode
        crawledAt = SaveResult.skipped) ∧
    (∀ u : GoURL, cs.enabled = true →
      ¬ (cs.maxFileSize > 0 ∧ (goLen content : Int) > cs.maxFileSize) →
      urlParse pageURL = some u →
      SavePageContent cs pageURL title content contentType statusCode
          crawledAt =
        SaveResult.written
          (joinPath (joinPath cs.baseDir (sanitizeDomain u.host))
            (createSafeFilename pageURL ++ ".html"))
          (createMetadataHeader pageURL title contentType statusCode
              crawledAt (goLen content) ++ "\n\n" ++ content)) := by
  constructor
  · intro h1 h2
    unfold SavePageContent
    by_cases he : cs.enabled = false
    · rw [if_pos he]
    · rw [if_neg he, if_pos ⟨h1, h2⟩]
  · intro u he hno hp
    unfold SavePageContent
    rw [if_neg (by simp [he]), if_neg hno, hp]

/-- The content saver of the C8 witness. -/
def csExample : ContentSaver := ⟨"data", true, 1000⟩

/-- Witness for C8: a 4-byte page is written under the sanitized host
directory with the path-derived filename, and a 2-byte ceiling causes a
silent skip of the same page. -/
theorem C8_save_page_content_witness :
    SavePageContent csExample "http://www.example.com:8080/about" "T"
        "body" "text/html" 200 "2026-01-01T00:00:00Z" =
      SaveResult.written "data/example_com_8080/about.html"
        (createMetadataHeader "http://www.example.com:8080/about" "T"
            "text/html" 200 "2026-01-01T00:00:00Z" 4 ++ "\n\n" ++
          "body") ∧
    SavePageContent ⟨"data", true, 2⟩ "http://www.example.com:8080/about"
        "T" "body" "text/html" 200 "2026-01-01T00:00:00Z" =
      SaveResult.skipped :=
  ⟨(C8_save_page_content csExample "http://www.example.com:8080/about"
        "T" "body" "text/html" 200 "2026-01-01T00:00:00Z").2
      ⟨"http", "", "www.example.com:8080", "/about", "", ""⟩
      rfl (by decide) (by decide),
   (C8_save_page_content ⟨"data", true, 2⟩
        "http://www.example.com:8080/about" "T" "body" "text/html" 200
        "2026-01-01T00:00:00Z").1 (by decide) (by decide)⟩

/-- Node types of golang.org/x/net/html (html.NodeType). -/
inductive HTMLNodeType where
  | errorNode
  | textNode
  | documentNode
  | elementNode
  | commentNode
  | doctypeNode
deriving DecidableEq

mutual

/-- html.Node from golang.org/x/net/html: type, Data, Attr and the
child list (FirstChild/NextSibling). -/
inductive HTMLNode where
  | mk (ntype : HTMLNodeType) (data : String)
      (attrs : List (String × String)) (children : HTMLForest)

/-- A sibling chain of html.Nodes. -/
inductive HTMLForest where
  | nil
  | cons (n : HTMLNode) (ns : HTMLForest)

end

/-- The node's type field. -/
def HTMLNode.ntype : HTMLNode → HTMLNodeType
  | HTMLNode.mk t _ _ _ => t

/-- The node's Data field. -/
def HTMLNode.data : HTMLNode → String
  | HTMLNode.mk _ d _ _ => d

/-- The node's Attr field as key/value pairs. -/
def HTMLNode.attrs : HTMLNode → List (String × String)
  | HTMLNode.mk _ _ a _ => a

/-- Whether the sibling chain is empty (FirstChild == nil). -/
def HTMLForest.isNil : HTMLForest → Bool
  | HTMLForest.nil => true
  | HTMLForest.cons _ _ => false

/-- Data of the first child, or the default when there is none. -/
def headDataD : HTMLForest → String → String
  | HTMLForest.nil, dflt => dflt
  | HTMLForest.cons c _, _ => c.data

/-- The value of the first attribute whose key is "href" (the Go loop
appends the first match and breaks). -/
def firstHref : List (String × String) → Option String
  | [] => none
  | (k, v) :: rest => if k = "href" then some v else firstHref rest

mutual

/-- The recursive walker `f` of ExtractLinks (src/unnamed/part_002
lines 18-31): at an `a` element append its first href value, then visit
the children; collected in document order. -/
def visitLinks : HTMLNode → List String
  | HTMLNode.mk t d attrs cs =>
      (if t = HTMLNodeType.elementNode ∧ d = "a" then
        (firstHref attrs).toList
      else []) ++ visitLinksF cs

/-- visitLinks over a sibling chain. -/
def visitLinksF : HTMLForest → List String
  | HTMLForest.nil => []
  | HTMLForest.cons n ns => visitLinks n ++ visitLinksF ns

end

mutual

/-- The recursive walker `f` of ExtractTitle (src/unnamed/part_002
lines 44-53): at a `title` element with a first child, overwrite the
accumulated title with that child's Data and skip the element's
children; otherwise visit the children, threading the accumulator. -/
def visitTitle : HTMLNode → String → String
  | HTMLNode.mk t d _ cs, title =>
      if t = HTMLNodeType.elementNode ∧ d = "title" ∧ cs.isNil = false
      then headDataD cs title
      else visitTitleF cs title

/-- visitTitle over a sibling chain, threading the accumulator. -/
def visitTitleF : HTMLForest → String → String
  | HTMLForest.nil, title => title
  | HTMLForest.cons n ns, title => visitTitleF ns (visitTitle n title)

end

mutual

/-- All nodes of a tree in document (pre-)order. -/
def preorder : HTMLNode → List HTMLNode
  | HTMLNode.mk t d a cs => HTMLNode.mk t d a cs :: preorderF cs

/-- Document-order nodes of a sibling chain. -/
def preorderF : HTMLForest → List HTMLNode
  | HTMLForest.nil => []
  | HTMLForest.cons n ns => preorder n ++ preorderF ns

end

/-- Specification view: the first href value of an anchor element. -/
def anchorHref (n : HTMLNode) : Option String :=
  if n.ntype = HTMLNodeType.elementNode ∧ n.data = "a" then
    firstHref n.attrs
  else none

mutual

/-- Specification view: the texts of qualifying title elements in visit
order (children of a qualifying title are skipped, as the walker skips
them). -/
def titleTexts : HTMLNode → List String
  | HTMLNode.mk t d _ cs =>
      if t = HTMLNodeType.elementNode ∧ d = "title" ∧ cs.isNil = false
      then [headDataD cs ""]
      else titleTextsF cs

/-- titleTexts over a sibling chain. -/
def titleTextsF : HTMLForest → List String
  | HTMLForest.nil => []
  | HTMLForest.cons n ns => titleTexts n ++ titleTextsF ns

end


mutual

/-- The link walker collects exactly the anchor hrefs of the pre-order
(document-order) node list. -/
theorem visitLinks_eq_filterMap (n : HTMLNode) :
    visitLinks n = (preorder n).filterMap anchorHref := by
  match n with
  | HTMLNode.mk t d attrs cs =>
      have ih := visitLinksF_eq_filterMap cs
      rw [visitLinks, preorder, List.filterMap_cons]
      by_cases h : t = HTMLNodeType.elementNode ∧ d = "a"
      · simp only [anchorHref, HTMLNode.ntype, HTMLNode.data,
          HTMLNode.attrs, if_pos h, ih]
        cases firstHref attrs <;> simp [h]
      · simp only [anchorHref, HTMLNode.ntype, HTMLNode.data,
          HTMLNode.attrs, if_neg h, ih]
        simp [h]

/-- Forest version of `visitLinks_eq_filterMap`. -/
theorem visitLinksF_eq_filterMap (ns : HTMLForest) :
    visitLinksF ns = (preorderF ns).filterMap anchorHref := by
  match ns with
  | HTMLForest.nil => rfl
  | HTMLForest.cons n rest =>
      have ih1 := visitLinks_eq_filterMap n
      have ih2 := visitLinksF_eq_filterMap rest
      rw [visitLinksF, preorderF, List.filterMap_append, ih1, ih2]

end

/-- getLastD distributes over list append. -/
theorem getLastD_append_str (l1 l2 : List String) (a : String) :
    (l1 ++ l2).getLastD a = l2.getLastD (l1.getLastD a) := by
  induction l1 generalizing a with
  | nil => rfl
  | cons x xs ih =>
      rw [List.cons_append, List.getLastD_cons, List.getLastD_cons, ih]

mutual

/-- The title walker returns the last qualifying title text in visit
order, or the accumulator when there is none. -/
theorem visitTitle_eq_getLastD (n : HTMLNode) (title : String) :
    visitTitle n title = (titleTexts n).getLastD title := by
  match n with
  | HTMLNode.mk t d attrs cs =>
      have ih := visitTitleF_eq_getLastD cs title
      rw [visitTitle, titleTexts]
      by_cases h : t = HTMLNodeType.elementNode ∧ d = "title" ∧
          cs.isNil = false
      · rw [if_pos h, if_pos h]
        cases cs with
        | nil => simp [HTMLForest.isNil] at h
        | cons c rest => simp [headDataD, List.getLastD]
      · rw [if_neg h, if_neg h]
        exact ih

/-- Forest version of `visitTitle_eq_getLastD`. -/
theorem visitTitleF_eq_getLastD (ns : HTMLForest) (title : String) :
    visitTitleF ns title = (titleTextsF ns).getLastD title := by
  match ns with
  | HTMLForest.nil => rfl
  | HTMLForest.cons n rest =>
      have ih1 := visitTitle_eq_getLastD n title
      have ih2 := visitTitleF_eq_getLastD rest (visitTitle n title)
      rw [visitTitleF, titleTextsF, getLastD_append_str, ih2, ih1]

end

/-- ExtractLinks from pkg/utils (src/unnamed/part_002 lines 11-34).
The html.Parse collaborator (golang.org/x/net/html) is external library
code, taken here as a parameter: `parse content = none` models a
non-nil parse error (the `return nil` branch), `some doc` the parsed
tree. -/
def ExtractLinks (parse : String → Option HTMLNode) (content : String) :
    List String :=
  match parse content with
  | none => []
  | some doc => visitLinks doc

/-- ExtractTitle from pkg/utils (src/unnamed/part_002 lines 37-56),
with html.Parse as a parameter as in `ExtractLinks`. -/
def ExtractTitle (parse : String → Option HTMLNode) (content : String) :
    String :=
  match parse content with
  | none => ""
  | some doc => visitTitle doc ""

/-- C10: for every input string and every outcome of the external HTML
parser, ExtractLinks and ExtractTitle return normally: on a parse error
they return the empty list / empty string, and on any parsed tree —
malformed input included — ExtractLinks returns exactly the first-href
values of the anchor elements in document order and ExtractTitle
returns the text of the (last qualifying) title element, defaulting to
the empty string when no title element exists. -/
theorem C10_extract_links_title (parse : String → Option HTMLNode)
    (content : String) :
    (parse content = none →
      ExtractLinks parse content = [] ∧
      ExtractTitle parse content = "") ∧
    (∀ doc : HTMLNode, parse content = some doc →
      ExtractLinks parse content = (preorder doc).filterMap anchorHref ∧
      ExtractTitle parse content = (titleTexts doc).getLastD "") := by
  constructor
  · intro h
    constructor <;> simp [ExtractLinks, ExtractTitle, h]
  · intro doc h
    constructor
    · simp [ExtractLinks, h, visitLinks_eq_filterMap]
    · simp [ExtractTitle, h, visitTitle_eq_getLastD]

/-- A small document: a title element with text and an anchor whose
href is its second attribute. -/
def docExample : HTMLNode :=
  HTMLNode.mk HTMLNodeType.documentNode "" []
    (HTMLForest.cons
      (HTMLNode.mk HTMLNodeType.elementNode "title" []
        (HTMLForest.cons
          (HTMLNode.mk HTMLNodeType.textNode "Hello" [] HTMLForest.nil)
          HTMLForest.nil))
      (HTMLForest.cons
        (HTMLNode.mk HTMLNodeType.elementNode "a"
          [("class", "x"), ("href", "page.html")] HTMLForest.nil)
        HTMLForest.nil))

/-- Witness for C10: a failing parse yields [] and "", and on a concrete
document the anchor's href and the title text are extracted. -/
theorem C10_extract_links_title_witness :
    ExtractLinks (fun _ => none) "<a" = [] ∧
    ExtractTitle (fun _ => none) "<a" = "" ∧
    ExtractLinks (fun _ => some docExample) "x" = ["page.html"] ∧
    ExtractTitle (fun _ => some docExample) "x" = "Hello" :=
  ⟨((C10_extract_links_title (fun _ => none) "<a").1 rfl).1,
   ((C10_extract_links_title (fun _ => none) "<a").1 rfl).2,
   (((C10_extract_links_title (fun _ => some docExample) "x").2
       docExample rfl).1).trans (by rfl),
   (((C10_extract_links_title (fun _ => some docExample) "x").2
       docExample rfl).2).trans (by rfl)⟩
